import Mathlib

/-!
# Verification of the Subtitle Audio Reconciliation Engine

Shallow embedding, in Lean 4, of the audio-reconciliation core of the
`srt2voice` repository, together with theorems settling the spec claims.

Durations are modelled over `ℚ` (Python floats carry exact decimal literals in
all the comparisons at stake, and `pydub` audio lengths are integer
milliseconds), audio buffers as a small symbolic term language recording the
transformations the code applies (`truncate`, `fade_out`, speed change), and
exceptions as explicit outcome constructors.

Embedded source files:
* `src/audio/processor 2.py` — `ProcessingStatistics`, the per-cue retry loop
  `AudioProcessor._generate_subtitle_audio`, and `_concatenate_audio`;
* `src/audio/timing.py` — `AudioTimingManager.check_and_adjust_audio`;
* `src/audio/processor_old.py` — `OverlapStatistics`, the per-cue overlap
  handling of `AudioProcessor.process_subtitles` / `_handle_overlap`;
* `src/audio/exceptions.py` — `AudioTooLongError.__init__`;
* `src/cli.py` — `get_enabled_services` and the `AudioTooLongError` handler
  inside `process_subtitles_with_fallback`;
* the duration estimator `TimingController` is imported by
  `processor 2.py` but absent from the sources; it is modelled from the spec
  (see `estimate_duration`).
-/

namespace Srt2Voice

/-- Python `int()` on a rational: truncation toward zero. -/
def pyInt (q : ℚ) : ℤ :=
  if 0 ≤ q then ⌊q⌋ else ⌈q⌉

/-- Symbolic audio buffers: a base buffer of known integer length in
milliseconds, and the transformations applied by the code under scrutiny.
`truncate a m` is Python `a[:m]`, `fadeOut` is `AudioSegment.fade_out`
(length-preserving), `speedup a f` is the resample-based speed change of
`timing.py._adjust_speed` / `processor_old._adjust_audio_speed`. -/
inductive Audio where
  | base (lenMs : ℕ)
  | truncate (a : Audio) (maxMs : ℕ)
  | fadeOut (a : Audio) (fadeMs : ℕ)
  | speedup (a : Audio) (factor : ℚ)
  deriving DecidableEq

/-- Integer length in milliseconds, as `pydub`'s `len(audio)` reports it.
A speed change by factor `f > 1` divides the duration by `f` (rate resample
followed by `set_frame_rate`); both `_adjust_speed` implementations leave the
audio unchanged for `f ≤ 1` on the code paths reached here. -/
def Audio.lenMs : Audio → ℕ
  | .base n => n
  | .truncate a m => min a.lenMs m
  | .fadeOut a _ => a.lenMs
  | .speedup a f => if 1 < f then (⌊(a.lenMs : ℚ) / f⌋).toNat else a.lenMs

/-- Duration in seconds, as the Python code computes `len(audio) / 1000.0`. -/
def Audio.durS (a : Audio) : ℚ := (a.lenMs : ℚ) / 1000

/-! ## `processor 2.py`: `ProcessingStatistics` and the per-cue retry loop -/

/-- `ProcessingStatistics` of `src/audio/processor 2.py` (all counters start
at zero). -/
structure ProcessingStatistics where
  total_segments : ℕ := 0
  text_optimized : ℕ := 0
  over_duration : ℕ := 0
  max_optimization_level : ℕ := 0
  deriving DecidableEq

/-- One backend response to a synthesis call: a buffer of `lenMs` milliseconds,
or an exception raised by `text_to_speech`. -/
inductive SynthResult where
  | ok (lenMs : ℕ)
  | err
  deriving DecidableEq

/-- Observable outcome of `AudioProcessor._generate_subtitle_audio`:
* `accepted lenMs` — the synthesized buffer is returned whole;
* `tooLongRuntimeError lenMs` — the `RuntimeError` built at the final
  overlength attempt (line 176); it is raised inside the `try`, caught by the
  generic `except`, and re-raised there because no attempts remain;
* `backendError` — a backend exception re-raised after exhausting attempts;
* `audioTooLong` — the `raise AudioTooLongError(...)` after the `while` loop
  (line 202), reached only if the loop ever exits normally. -/
inductive GenOutcome where
  | accepted (lenMs : ℕ)
  | tooLongRuntimeError (lenMs : ℕ)
  | backendError
  | audioTooLong
  deriving DecidableEq

/-- The `while retry_count < max_retries` loop of `_generate_subtitle_audio`,
lines 121–207 of `src/audio/processor 2.py`.  `resp k` is the backend's
response to the synthesis call of attempt `k` (the text synthesized at attempt
`k > 0` is `optimize_punctuation(text, k)`, which the duration logic never
inspects).  The returned `ℕ` counts synthesis calls performed.  `fuel` is a
structural-recursion bound; callers pass `fuel = maxRetries` so that the bound
is never the reason the loop stops (`genLoop_fuel_irrelevant` below). -/
def genLoop (resp : ℕ → SynthResult) (target : ℚ) (maxRetries : ℕ) :
    ℕ → ℕ → ProcessingStatistics → ℕ → GenOutcome × ProcessingStatistics × ℕ
  | 0, _, stats, calls => (.audioTooLong, stats, calls)
  | fuel + 1, retryCount, stats, calls =>
    if retryCount < maxRetries then
      match resp retryCount with
      | .err =>
        -- `except Exception as e`: retry if attempts remain, else re-raise
        if retryCount < maxRetries - 1 then
          genLoop resp target maxRetries fuel (retryCount + 1) stats (calls + 1)
        else
          (.backendError, stats, calls + 1)
      | .ok lenMs =>
        let actual : ℚ := (lenMs : ℚ) / 1000
        let ratio : ℚ := actual / target
        if 3 / 2 < ratio then
          if retryCount < maxRetries - 1 then
            genLoop resp target maxRetries fuel (retryCount + 1) stats (calls + 1)
          else
            -- line 176: `raise RuntimeError(error_msg)`; the generic `except`
            -- catches it and, with no attempts remaining, re-raises it
            (.tooLongRuntimeError lenMs, stats, calls + 1)
        else
          let stats1 :=
            if 0 < retryCount then
              { stats with
                  text_optimized := stats.text_optimized + 1,
                  max_optimization_level :=
                    max stats.max_optimization_level retryCount }
            else stats
          let stats2 :=
            if 6 / 5 < ratio then
              { stats1 with over_duration := stats1.over_duration + 1 }
            else stats1
          (.accepted lenMs, stats2, calls + 1)
    else
      -- `while` condition false: fall through to `raise AudioTooLongError`
      (.audioTooLong, stats, calls)

/-- `_generate_subtitle_audio` proper: `max_retries = 3`, `retry_count = 0`. -/
def generateSubtitleAudio (resp : ℕ → SynthResult) (target : ℚ)
    (stats : ProcessingStatistics) : GenOutcome × ProcessingStatistics × ℕ :=
  genLoop resp target 3 3 0 stats 0

/-- The loop recurses only while `retryCount < maxRetries - 1`, so with
`fuel ≥ maxRetries - retryCount` the fuel never runs out before the `while`
condition fails. -/
theorem genLoop_fuel_irrelevant (resp : ℕ → SynthResult) (target : ℚ)
    (maxRetries : ℕ) :
    ∀ fuel retryCount stats calls, maxRetries - retryCount ≤ fuel →
      (genLoop resp target maxRetries fuel retryCount stats calls).1 ≠
        .audioTooLong ∨ ¬ retryCount < maxRetries := by
  intro fuel
  induction fuel with
  | zero =>
    intro retryCount stats calls hle
    right; omega
  | succ fuel ih =>
    intro retryCount stats calls hle
    by_cases hlt : retryCount < maxRetries
    · left
      rw [genLoop, if_pos hlt]
      cases hresp : resp retryCount with
      | err =>
        dsimp only
        by_cases hrem : retryCount < maxRetries - 1
        · rw [if_pos hrem]
          rcases ih (retryCount + 1) stats (calls + 1) (by omega) with h | h
          · exact h
          · omega
        · rw [if_neg hrem]; simp
      | ok lenMs =>
        dsimp only
        by_cases hratio : 3 / 2 < ((lenMs : ℚ) / 1000) / target
        · rw [if_pos hratio]
          by_cases hrem : retryCount < maxRetries - 1
          · rw [if_pos hrem]
            rcases ih (retryCount + 1) stats (calls + 1) (by omega) with h | h
            · exact h
            · omega
          · rw [if_neg hrem]; simp
        · rw [if_neg hratio]
          simp
    · right; exact hlt

/-- Each iteration of the loop performs at most one synthesis call and the
loop body runs at most `maxRetries - retryCount` times. -/
theorem genLoop_calls_le (resp : ℕ → SynthResult) (target : ℚ) (maxRetries : ℕ) :
    ∀ fuel retryCount stats calls,
      (genLoop resp target maxRetries fuel retryCount stats calls).2.2 ≤
        calls + (maxRetries - retryCount) := by
  intro fuel
  induction fuel with
  | zero =>
    intro retryCount stats calls
    rw [genLoop]; dsimp only; omega
  | succ fuel ih =>
    intro retryCount stats calls
    by_cases hlt : retryCount < maxRetries
    · rw [genLoop, if_pos hlt]
      cases resp retryCount with
      | err =>
        dsimp only
        by_cases hrem : retryCount < maxRetries - 1
        · rw [if_pos hrem]
          have := ih (retryCount + 1) stats (calls + 1)
          omega
        · rw [if_neg hrem]; dsimp only; omega
      | ok lenMs =>
        dsimp only
        by_cases hratio : 3 / 2 < ((lenMs : ℚ) / 1000) / target
        · rw [if_pos hratio]
          by_cases hrem : retryCount < maxRetries - 1
          · rw [if_pos hrem]
            have := ih (retryCount + 1) stats (calls + 1)
            omega
          · rw [if_neg hrem]; dsimp only; omega
        · rw [if_neg hratio]; dsimp only; omega
    · rw [genLoop, if_neg hlt]; dsimp only; omega

/-- C1 (code_bug evidence).  On the failing input of
`tests/test_audio_fallback.py` — `target_duration = 3` s and a backend that
answers every attempt with a 10 000 ms buffer, so the duration ratio stays at
`10/3 > 1.5` through all three attempts — `_generate_subtitle_audio` ends in
the re-raised `RuntimeError` of line 176, not in `AudioTooLongError`; and for
`max_retries = 3` the post-loop `raise AudioTooLongError` (line 202) is
unreachable for every backend behaviour, so the `except AudioTooLongError`
branch of `process_subtitles_with_fallback` can never fire. -/
theorem generate_ends_in_runtimeError_not_audioTooLong :
    (generateSubtitleAudio (fun _ => .ok 10000) 3 {}).1 =
      GenOutcome.tooLongRuntimeError 10000 ∧
    ∀ resp target stats,
      (generateSubtitleAudio resp target stats).1 ≠ GenOutcome.audioTooLong := by
  constructor
  · norm_num [generateSubtitleAudio, genLoop]
  · intro resp target stats
    unfold generateSubtitleAudio
    rcases genLoop_fuel_irrelevant resp target 3 3 0 stats 0 (by omega) with h | h
    · exact h
    · omega

/-- C2.  For every backend behaviour and every target duration, the per-cue
retry loop of `_generate_subtitle_audio` performs at most
`max_retries = 3` synthesis calls before returning or failing. -/
theorem generate_at_most_three_synthesis_calls
    (resp : ℕ → SynthResult) (target : ℚ) (stats : ProcessingStatistics) :
    (generateSubtitleAudio resp target stats).2.2 ≤ 3 := by
  unfold generateSubtitleAudio
  have := genLoop_calls_le resp target 3 3 0 stats 0
  omega

/-- C3.  Whenever the synthesis call of attempt `k` returns a buffer whose
duration ratio is `≤ 1.5`, the buffer is accepted and returned whole; the
statistics record `text_optimized + 1` and raise `max_optimization_level` to
at least `k` exactly when `k > 0`, and record `over_duration + 1` exactly when
the ratio exceeds `1.2` — no truncation, `total_segments` untouched. -/
theorem generate_accepts_within_threshold
    (resp : ℕ → SynthResult) (target : ℚ) (maxRetries fuel k calls : ℕ)
    (stats : ProcessingStatistics) (d : ℕ)
    (_htarget : 0 < target) (hk : k < maxRetries) (hresp : resp k = .ok d)
    (hratio : ((d : ℚ) / 1000) / target ≤ 3 / 2) :
    genLoop resp target maxRetries (fuel + 1) k stats calls =
      (.accepted d,
       { stats with
           text_optimized :=
             if 0 < k then stats.text_optimized + 1 else stats.text_optimized,
           max_optimization_level :=
             if 0 < k then max stats.max_optimization_level k
             else stats.max_optimization_level,
           over_duration :=
             if 6 / 5 < ((d : ℚ) / 1000) / target then stats.over_duration + 1
             else stats.over_duration },
       calls + 1) := by
  rw [genLoop, if_pos hk, hresp]
  dsimp only
  rw [if_neg (not_lt.mpr hratio)]
  by_cases h0 : 0 < k <;> by_cases h12 : 6 / 5 < ((d : ℚ) / 1000) / target <;>
    simp [h0, h12]

/-- Witness for C3: attempt `k = 1`, a 2 600 ms buffer against a 2 s target
(ratio `1.3 ∈ (1.2, 1.5]`) is accepted whole, with `text_optimized = 1`,
`max_optimization_level = 1` and `over_duration = 1`. -/
theorem generate_accepts_within_threshold_witness :
    genLoop (fun _ => .ok 2600) 2 3 3 1 {} 0 =
      (.accepted 2600, ⟨0, 1, 1, 1⟩, 1) := by
  have h := generate_accepts_within_threshold (fun _ => .ok 2600) 2 3 2 1 0 {} 2600
    (by norm_num) (by norm_num) rfl (by norm_num)
  rw [h]
  norm_num

/-! ## `timing.py`: `AudioTimingManager.check_and_adjust_audio` -/

/-- The `self.stats` dictionary of `AudioTimingManager`. -/
structure TimingStats where
  overlaps_detected : ℕ
  speed_adjustments : List ℚ
  truncations : ℕ
  deriving DecidableEq

/-- `AudioTimingManager` of `src/audio/timing.py` (constructor defaults:
`overlap_handling = "speed_adjust"`, `speed_adjust_limit = 1.5`,
`fade_duration_ms = int(0.05 * 1000) = 50`). -/
structure AudioTimingManager where
  overlap_handling : String := "speed_adjust"
  speed_adjust_limit : ℚ := 3 / 2
  fade_duration_ms : ℤ := 50
  stats : TimingStats := ⟨0, [], 0⟩
  deriving DecidableEq

/-- `AudioTimingManager._adjust_speed`: resample-based speed change for
`factor > 1`, unchanged otherwise. -/
def adjustSpeed (audio : Audio) (speedFactor : ℚ) : Audio :=
  if 1 < speedFactor then .speedup audio speedFactor else audio

/-- `AudioTimingManager._truncate_audio`: cut to `int(max_duration * 1000)` ms
and fade out over `fade_duration_ms` when the cut piece is longer than the
fade window. -/
def truncAudioTiming (m : AudioTimingManager) (audio : Audio)
    (maxDuration : ℚ) : Audio :=
  let maxMs := pyInt (maxDuration * 1000)
  if (audio.lenMs : ℤ) ≤ maxMs then audio
  else
    let truncated := Audio.truncate audio maxMs.toNat
    if m.fade_duration_ms < (truncated.lenMs : ℤ) then
      .fadeOut truncated m.fade_duration_ms.toNat
    else truncated

/-- `AudioTimingManager.check_and_adjust_audio`, lines 32–112 of
`src/audio/timing.py`.  The `Bool` is whether a warning message is returned
(the string contents are not modelled).  Under the `speed_adjust` policy a
required factor above the limit is handled by speeding up at the *limit*
factor and warning about the residual overlap — not by truncating. -/
def checkAndAdjustAudio (m : AudioTimingManager) (audio : Audio)
    (startTime endTime : ℚ) : Audio × Bool × AudioTimingManager :=
  let available := endTime - startTime
  let actual := audio.durS
  if actual ≤ available then (audio, false, m)
  else
    let m1 := { m with
      stats := { m.stats with
        overlaps_detected := m.stats.overlaps_detected + 1 } }
    if m1.overlap_handling = "warn_only" then
      (audio, true, m1)
    else if m1.overlap_handling = "speed_adjust" then
      let requiredSpeed := actual / available
      if requiredSpeed ≤ m1.speed_adjust_limit then
        (adjustSpeed audio requiredSpeed, true,
         { m1 with stats := { m1.stats with
             speed_adjustments := m1.stats.speed_adjustments ++ [requiredSpeed] } })
      else
        (adjustSpeed audio m1.speed_adjust_limit, true,
         { m1 with stats := { m1.stats with
             speed_adjustments :=
               m1.stats.speed_adjustments ++ [m1.speed_adjust_limit] } })
    else if m1.overlap_handling = "truncate" then
      (truncAudioTiming m1 audio available, true,
       { m1 with stats := { m1.stats with
           truncations := m1.stats.truncations + 1 } })
    else
      (audio, true, m1)

/-! ## `processor_old.py`: `OverlapStatistics` and per-cue overlap handling -/

/-- `OverlapStatistics` of `src/audio/processor_old.py`. -/
structure OverlapStatistics where
  total_overlaps : ℕ := 0
  speed_adjusted : ℕ := 0
  truncated : ℕ := 0
  warned_only : ℕ := 0
  max_speed_factor : ℚ := 1
  total_time_adjusted : ℚ := 0
  deriving DecidableEq

/-- The `AudioProcessor` of `src/audio/processor_old.py` (config defaults:
`overlap_handling = "speed_adjust"`, `speed_adjust_limit = 1.5`,
`fade_duration = 0.0` — fade-out off by default). -/
structure OldAudioProcessor where
  overlap_handling : String := "speed_adjust"
  speed_adjust_limit : ℚ := 3 / 2
  fade_duration : ℚ := 0
  overlap_stats : OverlapStatistics := {}
  segments : List (ℚ × Audio) := []
  deriving DecidableEq

/-- `processor_old._adjust_audio_speed`: time-stretch by `speed_factor`
(identity for factor 1). -/
def adjustAudioSpeedOld (audio : Audio) (speedFactor : ℚ) : Audio :=
  if speedFactor = 1 then audio else .speedup audio speedFactor

/-- `processor_old._truncate_with_fade`: cut to `max_duration_ms` and fade out
over `int(fade_duration * 1000)` ms when that is positive and shorter than the
cut piece. -/
def truncateWithFade (p : OldAudioProcessor) (audio : Audio)
    (maxDurationMs : ℤ) : Audio :=
  if (audio.lenMs : ℤ) ≤ maxDurationMs then audio
  else
    let truncated := Audio.truncate audio maxDurationMs.toNat
    let fadeMs := pyInt (p.fade_duration * 1000)
    if 0 < fadeMs ∧ fadeMs < (truncated.lenMs : ℤ) then
      .fadeOut truncated fadeMs.toNat
    else truncated

/-- The overlap-handling block of `processor_old.AudioProcessor`, lines
120–163 of `process_subtitles` (duplicated verbatim in `_handle_overlap`,
lines 308–357).  Called only when `audio_duration > available_duration`. -/
def handleOverlap (p : OldAudioProcessor) (audio : Audio)
    (audioDuration availableDur : ℚ) : Audio × OverlapStatistics :=
  let st := { p.overlap_stats with
    total_overlaps := p.overlap_stats.total_overlaps + 1 }
  let overlapDuration := audioDuration - availableDur
  if p.overlap_handling = "speed_adjust" then
    let speedFactor := audioDuration / availableDur
    if speedFactor ≤ p.speed_adjust_limit then
      (adjustAudioSpeedOld audio speedFactor,
       { st with
           speed_adjusted := st.speed_adjusted + 1,
           max_speed_factor := max st.max_speed_factor speedFactor,
           total_time_adjusted := st.total_time_adjusted + overlapDuration })
    else
      (truncateWithFade p audio (pyInt (availableDur * 1000)),
       { st with truncated := st.truncated + 1 })
  else if p.overlap_handling = "truncate" then
    (truncateWithFade p audio (pyInt (availableDur * 1000)),
     { st with truncated := st.truncated + 1 })
  else
    (audio, { st with warned_only := st.warned_only + 1 })

/-- The available time window computed by `processor_old.process_subtitles`
(lines 111–117) and `add_audio_segment` (lines 66–72):
`end - start`, tightened to `next_start - start` when the next cue's start is
known. -/
def availableDuration (startTime endTime : ℚ) (nextStartTime : Option ℚ) : ℚ :=
  match nextStartTime with
  | some ns => min (endTime - startTime) (ns - startTime)
  | none => endTime - startTime

/-- One iteration of the cue loop of `processor_old.process_subtitles`
(lines 96–164): compute the available window, correct the audio only when its
duration exceeds it, then append `(start_time, audio)` to the segment list. -/
def processCueOld (p : OldAudioProcessor) (startTime endTime : ℚ)
    (nextStartTime : Option ℚ) (audio : Audio) : OldAudioProcessor :=
  let audioDur := audio.durS
  let available := availableDuration startTime endTime nextStartTime
  if available < audioDur then
    let r := handleOverlap p audio audioDur available
    { p with
        overlap_stats := r.2,
        segments := p.segments ++ [(startTime, r.1)] }
  else
    { p with segments := p.segments ++ [(startTime, audio)] }

/-- C4 counterexample.  `check_and_adjust_audio` with the default
`speed_adjust` policy (limit `1.5`), a 9 000 ms buffer and a 3 s window:
the required factor is `3 > 1.5`, yet the result is the audio sped up at the
limit factor — 6 000 ms, twice the available 3 000 ms — with the truncation
counter left at `0` and a speed adjustment recorded instead, contradicting
the claim that such audio is truncated to the available duration. -/
theorem checkAndAdjust_overlimit_speeds_up_cex :
    (checkAndAdjustAudio {} (.base 9000) 0 3).1 =
      Audio.speedup (.base 9000) (3 / 2) ∧
    (checkAndAdjustAudio {} (.base 9000) 0 3).1.lenMs = 6000 ∧
    (checkAndAdjustAudio {} (.base 9000) 0 3).2.2.stats.truncations = 0 ∧
    (checkAndAdjustAudio {} (.base 9000) 0 3).2.2.stats.speed_adjustments =
      [3 / 2] := by
  norm_num [checkAndAdjustAudio, adjustSpeed, Audio.durS, Audio.lenMs,
    show ((("speed_adjust" : String) = "warn_only") = False) by simp,
    show ((("speed_adjust" : String) = "speed_adjust") = True) by simp]
  decide

/-- C4 as amended.  In `processor_old.AudioProcessor` (the second
implementation the claim cites), the `speed_adjust` policy with required
factor above the limit does truncate: the result is
`_truncate_with_fade(audio, int(available * 1000))` — exactly the available
duration in milliseconds, faded only when the configured `fade_duration` is
positive (default `0.0`) — with `truncated` incremented and `speed_adjusted`
untouched. -/
theorem handleOverlap_beyond_limit_truncates
    (p : OldAudioProcessor) (audio : Audio) (available : ℚ)
    (hpol : p.overlap_handling = "speed_adjust")
    (havail : 0 < available)
    (hover : available < audio.durS)
    (hfac : p.speed_adjust_limit < audio.durS / available) :
    handleOverlap p audio audio.durS available =
      (truncateWithFade p audio (pyInt (available * 1000)),
       { p.overlap_stats with
           total_overlaps := p.overlap_stats.total_overlaps + 1,
           truncated := p.overlap_stats.truncated + 1 }) ∧
    ((handleOverlap p audio audio.durS available).1.lenMs : ℤ) =
      pyInt (available * 1000) := by
  have hmain : handleOverlap p audio audio.durS available =
      (truncateWithFade p audio (pyInt (available * 1000)),
       { p.overlap_stats with
           total_overlaps := p.overlap_stats.total_overlaps + 1,
           truncated := p.overlap_stats.truncated + 1 }) := by
    unfold handleOverlap
    rw [if_pos hpol, if_neg (not_le.mpr hfac)]
  refine ⟨hmain, ?_⟩
  rw [hmain]
  -- the cut lands strictly inside the buffer: `⌊available * 1000⌋ < lenMs`
  have hq : available * 1000 < (audio.lenMs : ℚ) := by
    have := hover
    rw [Audio.durS] at this
    have h1000 : (0 : ℚ) < 1000 := by norm_num
    calc available * 1000 < ((audio.lenMs : ℚ) / 1000) * 1000 := by
          exact mul_lt_mul_of_pos_right this h1000
      _ = (audio.lenMs : ℚ) := by field_simp
  have hmaxMs : pyInt (available * 1000) = ⌊available * 1000⌋ := by
    rw [pyInt, if_pos (by positivity)]
  have hfloor_lt : ⌊available * 1000⌋ < (audio.lenMs : ℤ) := by
    have hle : ((⌊available * 1000⌋ : ℚ)) ≤ available * 1000 :=
      Int.floor_le _
    exact_mod_cast lt_of_le_of_lt hle hq
  have hfloor_nonneg : 0 ≤ ⌊available * 1000⌋ :=
    Int.floor_nonneg.mpr (by positivity)
  rw [truncateWithFade, if_neg (by rw [hmaxMs]; omega)]
  rw [hmaxMs]
  dsimp only
  -- the fade, if applied, preserves length; the cut length is the floor
  have hlen : (Audio.truncate audio (⌊available * 1000⌋).toNat).lenMs =
      (⌊available * 1000⌋).toNat := by
    rw [Audio.lenMs]
    omega
  by_cases hfade : 0 < pyInt (p.fade_duration * 1000) ∧
      pyInt (p.fade_duration * 1000) <
        ((Audio.truncate audio (⌊available * 1000⌋).toNat).lenMs : ℤ)
  · rw [if_pos hfade, Audio.lenMs, hlen]; omega
  · rw [if_neg hfade, hlen]; omega

/-- Witness for C4's amended theorem: a 9 000 ms buffer against a 3 s window
(factor `3 > 1.5`, default fade `0.0`) comes back cut to exactly 3 000 ms,
unfaded, with `truncated = 1` and `speed_adjusted = 0`. -/
theorem handleOverlap_beyond_limit_truncates_witness :
    handleOverlap {} (.base 9000) ((Audio.base 9000).durS) 3 =
      (.truncate (.base 9000) 3000, ⟨1, 0, 1, 0, 1, 0⟩) ∧
    (Audio.truncate (.base 9000) 3000).lenMs = 3000 := by
  have h := handleOverlap_beyond_limit_truncates {} (.base 9000) 3
    rfl (by norm_num) (by norm_num [Audio.durS, Audio.lenMs])
    (by norm_num [Audio.durS, Audio.lenMs])
  rw [h.1]
  norm_num [truncateWithFade, pyInt, Audio.lenMs, OverlapStatistics]
  decide

/-- C5.  The available window is `min(end - start, next_start - start)` when
the next cue's start is given and `end - start` otherwise, and audio that fits
inside it is appended to the segment list unchanged, with the overlap
statistics untouched. -/
theorem processCue_fitting_audio_unchanged
    (p : OldAudioProcessor) (startTime endTime ns : ℚ)
    (nextStartTime : Option ℚ) (audio : Audio)
    (hfit : audio.durS ≤ availableDuration startTime endTime nextStartTime) :
    availableDuration startTime endTime (some ns) =
      min (endTime - startTime) (ns - startTime) ∧
    availableDuration startTime endTime none = endTime - startTime ∧
    processCueOld p startTime endTime nextStartTime audio =
      { p with segments := p.segments ++ [(startTime, audio)] } := by
  refine ⟨rfl, rfl, ?_⟩
  unfold processCueOld
  rw [if_neg (not_lt.mpr hfit)]

/-- Witness for C5: a 1 500 ms buffer in the window `start = 1`, `end = 4`,
`next_start = 3` (available `min(3, 2) = 2` s) is appended unchanged. -/
theorem processCue_fitting_audio_unchanged_witness :
    processCueOld {} 1 4 (some 3) (.base 1500) =
      { (({} : OldAudioProcessor)) with segments := [((1 : ℚ), .base 1500)] } ∧
    availableDuration 1 4 (some 3) = 2 := by
  have h := processCue_fitting_audio_unchanged {} 1 4 3 (some 3) (.base 1500)
    (by norm_num [Audio.durS, Audio.lenMs, availableDuration])
  refine ⟨?_, by norm_num [availableDuration]⟩
  rw [h.2.2]
  rfl

/-! ## `processor 2.py`: `_concatenate_audio` -/

/-- Ordering key of `self.audio_segments.sort(key=lambda x: x[0])`. -/
def segLE (a b : ℚ × Audio) : Prop := a.1 ≤ b.1

instance : DecidableRel segLE := fun a b =>
  inferInstanceAs (Decidable (a.1 ≤ b.1))

instance : IsTotal (ℚ × Audio) segLE := ⟨fun a b => le_total a.1 b.1⟩

instance : IsTrans (ℚ × Audio) segLE := ⟨fun _ _ _ => le_trans⟩

/-- One iteration of the concatenation walk of `_concatenate_audio`
(lines 250–276 of `src/audio/processor 2.py`), tracking
`last_end_time_ms`.  When the segment starts after the current end, silence
covering the gap is appended and the track grows to `start + len`; when it
starts before (residual overlap), the buffer is appended back-to-back and the
track grows to `last_end + len`.  In every branch the appended track's total
length equals the new `last_end_time_ms`, so the fold below returns the track
length in milliseconds. -/
def concatStep (lastEndMs : ℤ) (seg : ℚ × Audio) : ℤ :=
  let startMs := pyInt (seg.1 * 1000)
  let durMs : ℤ := seg.2.lenMs
  if startMs < lastEndMs then lastEndMs + durMs else startMs + durMs

/-- `AudioProcessor._concatenate_audio` (lines 234–287): result track length
in milliseconds.  Sort by start time (Python's stable sort, modelled by the
stable `insertionSort`), walk the sorted segments, then pad with trailing
silence up to `int(total_duration * 1000)` when the assembled track is
shorter and `total_duration > 0` (where `total_duration` is the last
subtitle's `end`, set by `process_subtitles`). -/
def concatenateAudio (segments : List (ℚ × Audio)) (totalDuration : ℚ) : ℤ :=
  if segments = [] then 0
  else
    let sorted := List.insertionSort segLE segments
    let lenMs := sorted.foldl concatStep 0
    if 0 < totalDuration then
      let expectedMs := pyInt (totalDuration * 1000)
      if lenMs < expectedMs then expectedMs else lenMs
    else lenMs

/-- C6.  Final concatenation walks the placed segments in ascending
`start_time` order, and whenever the assembled track is shorter than the last
cue's nominal end time, trailing silence brings the final track to exactly
that nominal end (in milliseconds). -/
theorem concatenate_tail_padding
    (segments : List (ℚ × Audio)) (totalDuration : ℚ)
    (hne : segments ≠ []) (htot : 0 < totalDuration)
    (hshort : (List.insertionSort segLE segments).foldl concatStep 0 <
      pyInt (totalDuration * 1000)) :
    List.Sorted segLE (List.insertionSort segLE segments) ∧
    concatenateAudio segments totalDuration = pyInt (totalDuration * 1000) := by
  refine ⟨List.sorted_insertionSort segLE segments, ?_⟩
  unfold concatenateAudio
  rw [if_neg hne]
  dsimp only
  rw [if_pos htot, if_pos hshort]

/-- Witness for C6: segments inserted out of order, ending at 9 800 ms, with
the last cue's nominal end at 10 s, produce a 10 000 ms track. -/
theorem concatenate_tail_padding_witness :
    concatenateAudio [((6 : ℚ), .base 3800), ((0 : ℚ), .base 5000)] 10 =
      10000 := by
  have hshort : (List.insertionSort segLE
        [((6 : ℚ), .base 3800), ((0 : ℚ), .base 5000)]).foldl concatStep 0 <
      pyInt ((10 : ℚ) * 1000) := by
    norm_num [List.insertionSort, List.orderedInsert, segLE, concatStep,
      pyInt, Audio.lenMs]
  have h := concatenate_tail_padding
    [((6 : ℚ), .base 3800), ((0 : ℚ), .base 5000)] 10
    (by simp) (by norm_num) hshort
  rw [h.2]
  norm_num [pyInt]

/-! ## `cli.py`: backend escalation on `AudioTooLongError` -/

/-- The per-service fields `get_enabled_services` reads from the
configuration: `enabled` and `priority` (default `999` when missing, folded
into the field here). -/
structure ServiceConfig where
  name : String
  enabled : Bool
  priority : ℕ
  deriving DecidableEq

/-- Ordering key of `sorted(services, key=lambda x: x['priority'])`. -/
def priorityLE (a b : ServiceConfig) : Prop := a.priority ≤ b.priority

instance : DecidableRel priorityLE := fun a b =>
  inferInstanceAs (Decidable (a.priority ≤ b.priority))

instance : IsTotal ServiceConfig priorityLE :=
  ⟨fun a b => le_total a.priority b.priority⟩

instance : IsTrans ServiceConfig priorityLE := ⟨fun _ _ _ => le_trans⟩

/-- `get_enabled_services` (lines 375–390 of `src/cli.py`): the enabled
services, sorted by ascending priority number (Python's stable sort,
modelled by the stable `insertionSort`). -/
def getEnabledServices (services : List ServiceConfig) : List ServiceConfig :=
  List.insertionSort priorityLE (services.filter (·.enabled))

/-- Result of the `except AudioTooLongError` handler of
`process_subtitles_with_fallback`: either the fatal `RuntimeError` (whose
message reports the last error's actual and target durations), or a swap to
`serviceName` restarting the loop with the given failed set and the reset
processor state. -/
inductive FallbackOutcome where
  | fatal (lastActual lastTarget : ℚ)
  | swap (serviceName : String) (failed : List String)
      (segments : List (ℚ × Audio)) (stats : ProcessingStatistics)
  deriving DecidableEq

/-- The `except AudioTooLongError as e` handler of
`process_subtitles_with_fallback`, lines 418–461 of `src/cli.py`: add the
current backend to the failed set, scan the enabled services in priority
order for the first one not failed that initializes (`initOk`), and either
fail fatally with the last error's durations or swap — clearing
`audio_processor.audio_segments` and installing a fresh
`ProcessingStatistics()` before the loop restarts.  `segments` and `stats`
are the processor state accumulated by the failed run; the swap discards
them. -/
def handleAudioTooLong (services : List ServiceConfig) (initOk : String → Bool)
    (failedServices : List String) (currentName : String)
    (actual target : ℚ) (_segments : List (ℚ × Audio))
    (_stats : ProcessingStatistics) : FallbackOutcome :=
  let failed := currentName :: failedServices
  match (getEnabledServices services).find?
      (fun s => !(failed.contains s.name) && initOk s.name) with
  | none => .fatal actual target
  | some s => .swap s.name failed [] {}

/-- C7.  Every swap triggered by `AudioTooLong` hands the restarted run an
empty segment list and a freshly constructed `ProcessingStatistics` — in
particular `total_segments = 0` — regardless of the state the failed run had
accumulated. -/
theorem swap_resets_processor_state
    (services : List ServiceConfig) (initOk : String → Bool)
    (failedServices : List String) (currentName : String)
    (actual target : ℚ) (segments : List (ℚ × Audio))
    (stats : ProcessingStatistics) (name : String) (failed : List String)
    (segments2 : List (ℚ × Audio)) (stats2 : ProcessingStatistics)
    (h : handleAudioTooLong services initOk failedServices currentName
        actual target segments stats = .swap name failed segments2 stats2) :
    segments2 = [] ∧ stats2 = {} ∧ stats2.total_segments = 0 := by
  unfold handleAudioTooLong at h
  dsimp only at h
  rcases hfind : (getEnabledServices services).find?
      (fun s => !((currentName :: failedServices).contains s.name) &&
        initOk s.name) with _ | s
  · rw [hfind] at h
    exact absurd h (by simp)
  · rw [hfind] at h
    injection h with _ _ h2 h3
    subst h2; subst h3
    exact ⟨rfl, rfl, rfl⟩

/-- Witness for C7: two enabled backends, the first fails on a cue; the
handler swaps to the second with the segment list and statistics reset. -/
theorem swap_resets_processor_state_witness :
    handleAudioTooLong [⟨"a", true, 1⟩, ⟨"b", true, 2⟩] (fun _ => true)
        [] "a" 5 2 [((0 : ℚ), .base 100)] ⟨7, 1, 1, 2⟩ =
      .swap "b" ["a"] [] {} ∧
    ([] : List (ℚ × Audio)) = [] ∧ ({} : ProcessingStatistics) = {} ∧
    ({} : ProcessingStatistics).total_segments = 0 := by
  have heval : handleAudioTooLong [⟨"a", true, 1⟩, ⟨"b", true, 2⟩]
      (fun _ => true) [] "a" 5 2 [((0 : ℚ), .base 100)] ⟨7, 1, 1, 2⟩ =
      .swap "b" ["a"] [] {} := by
    simp [handleAudioTooLong, getEnabledServices, List.insertionSort,
      List.orderedInsert, priorityLE, List.find?]
  exact ⟨heval,
    swap_resets_processor_state [⟨"a", true, 1⟩, ⟨"b", true, 2⟩]
      (fun _ => true) [] "a" 5 2 [((0 : ℚ), .base 100)] ⟨7, 1, 1, 2⟩
      "b" ["a"] [] {} heval⟩

/-- `find?` over a conjunction of predicates reduces to `find?` over the
first when the second holds everywhere in the list. -/
theorem find?_and_right_of_all {α : Type} (p q : α → Bool) :
    ∀ l : List α, (∀ x ∈ l, q x = true) →
      l.find? (fun x => p x && q x) = l.find? p
  | [], _ => rfl
  | a :: l, h => by
    have ha : q a = true := h a (by simp)
    by_cases hp : p a = true
    · simp [List.find?, hp, ha]
    · have hp' : p a = false := by simpa using hp
      simp only [List.find?, hp', ha, Bool.false_and]
      exact find?_and_right_of_all p q l fun x hx => h x (by simp [hx])

/-- C8.  The enabled-service list is sorted by ascending priority; when every
enabled service initializes, the handler swaps to the first enabled service
not in the failed set (in that order) and fails fatally — reporting the last
`AudioTooLong`'s actual and target durations — exactly when none remains. -/
theorem fallback_priority_selection
    (services : List ServiceConfig) (initOk : String → Bool)
    (failedServices : List String) (currentName : String)
    (actual target : ℚ) (segments : List (ℚ × Audio))
    (stats : ProcessingStatistics) :
    List.Sorted priorityLE (getEnabledServices services) ∧
    ((∀ s ∈ getEnabledServices services, initOk s.name = true) →
      handleAudioTooLong services initOk failedServices currentName
          actual target segments stats =
        match (getEnabledServices services).find?
            (fun s => !((currentName :: failedServices).contains s.name)) with
        | none => .fatal actual target
        | some s => .swap s.name (currentName :: failedServices) [] {}) ∧
    ((∀ s ∈ getEnabledServices services,
        s.name ∈ currentName :: failedServices) →
      handleAudioTooLong services initOk failedServices currentName
          actual target segments stats = .fatal actual target) := by
  refine ⟨List.sorted_insertionSort priorityLE _, ?_, ?_⟩
  · intro hinit
    unfold handleAudioTooLong
    dsimp only
    rw [find?_and_right_of_all
      (fun s => !((currentName :: failedServices).contains s.name)) _ _ hinit]
  · intro hall
    unfold handleAudioTooLong
    dsimp only
    have hnone : (getEnabledServices services).find?
        (fun s => !((currentName :: failedServices).contains s.name) &&
          initOk s.name) = none := by
      rw [List.find?_eq_none]
      intro s hs
      have hc : (currentName :: failedServices).contains s.name = true := by
        simpa using hall s hs
      simp only [hc, Bool.not_true, Bool.false_and]
      exact Bool.false_ne_true
    rw [hnone]

/-- Witness for C8: with priorities `b → 2`, `a → 1`, a disabled `c`, and `a`
just failed, the handler swaps to `b` (the lowest-priority enabled survivor);
and once every enabled service is failed, it is fatal with the last error's
durations. -/
theorem fallback_priority_selection_witness :
    handleAudioTooLong [⟨"b", true, 2⟩, ⟨"a", true, 1⟩, ⟨"c", false, 0⟩]
        (fun _ => true) [] "a" 5 2 [] {} =
      .swap "b" ["a"] [] {} ∧
    handleAudioTooLong [⟨"b", true, 2⟩, ⟨"a", true, 1⟩, ⟨"c", false, 0⟩]
        (fun _ => true) ["b"] "a" 5 2 [] {} = .fatal 5 2 := by
  constructor
  · have h := (fallback_priority_selection
      [⟨"b", true, 2⟩, ⟨"a", true, 1⟩, ⟨"c", false, 0⟩]
      (fun _ => true) [] "a" 5 2 [] {}).2.1 (fun _ _ => rfl)
    rw [h]
    simp [getEnabledServices, List.insertionSort, List.orderedInsert,
      priorityLE, List.find?]
  · have h := (fallback_priority_selection
      [⟨"b", true, 2⟩, ⟨"a", true, 1⟩, ⟨"c", false, 0⟩]
      (fun _ => true) ["b"] "a" 5 2 [] {}).2.2
    apply h
    intro s hs
    simp [getEnabledServices, List.insertionSort, List.orderedInsert,
      priorityLE] at hs
    rcases hs with h1 | h1 <;> subst h1 <;> simp

/-! ## Duration estimation (`TimingController.estimate_duration`)

`processor 2.py` imports `TimingController` from `.timing`, but the sources
only contain `AudioTimingManager` there: the estimator itself is missing from
the repository.  It is therefore modelled from the spec (§4.1
DurationEstimator), which fixes the algorithm completely up to the exact
character classes. -/

/-- Modelled from the spec: CJK character test for the missing
`TimingController`'s per-character classification (the CJK Unified
Ideographs block). -/
def isChineseChar (c : Char) : Bool :=
  0x4E00 ≤ c.toNat && c.toNat ≤ 0x9FFF

/-- Modelled from the spec: ASCII letter test (`english(letter)` class). -/
def isEnglishLetter (c : Char) : Bool := c.isAlpha

/-- Modelled from the spec: ASCII digit test (`number(digit)` class). -/
def isDigitChar (c : Char) : Bool := c.isDigit

/-- Modelled from the spec: the `space` class. -/
def isSpaceChar (c : Char) : Bool := c = ' '

/-- Modelled from the spec: the `punctuation` class (common ASCII and CJK
pause punctuation). -/
def isPunctChar (c : Char) : Bool :=
  [',', '.', '!', '?', ';', ':', '，', '。', '！', '？', '；', '：',
    '、', '…', '—'].contains c

/-- Modelled from the spec: fixed per-class base durations in seconds per
character — chinese 0.25, english 0.08, number 0.20, space 0.05,
punctuation 0.10, default 0.20. -/
def charBaseDuration (c : Char) : ℚ :=
  if isChineseChar c then 1 / 4
  else if isEnglishLetter c then 2 / 25
  else if isDigitChar c then 1 / 5
  else if isSpaceChar c then 1 / 20
  else if isPunctChar c then 1 / 10
  else 1 / 5

/-- Modelled from the spec: length correction — ×0.95 over 50 characters,
else ×0.98 over 30, else unchanged. -/
def lengthCorrection (n : ℕ) : ℚ :=
  if 50 < n then 19 / 20 else if 30 < n then 49 / 50 else 1

/-- Modelled from the spec: ×1.1 penalty when the text mixes at least two of
`{has_chinese, has_english, has_digit}`. -/
def mixedScriptFactor (cs : List Char) : ℚ :=
  let classes : ℕ :=
    (if cs.any isChineseChar then 1 else 0) +
    (if cs.any isEnglishLetter then 1 else 0) +
    (if cs.any isDigitChar then 1 else 0)
  if 2 ≤ classes then 11 / 10 else 1

/-- Modelled from the spec: `TimingController.estimate_duration` — sum the
per-character base durations, apply the length correction and the
mixed-script penalty, and add the fixed 0.1 s base pause. -/
def estimate_duration (text : String) : ℚ :=
  (text.toList.map charBaseDuration).sum *
    lengthCorrection text.toList.length * mixedScriptFactor text.toList +
    1 / 10

theorem charBaseDuration_nonneg (c : Char) : 0 ≤ charBaseDuration c := by
  unfold charBaseDuration
  split_ifs <;> norm_num

theorem lengthCorrection_pos (n : ℕ) : 0 < lengthCorrection n := by
  unfold lengthCorrection
  split_ifs <;> norm_num

theorem mixedScriptFactor_pos (cs : List Char) : 0 < mixedScriptFactor cs := by
  unfold mixedScriptFactor
  split_ifs <;> norm_num

/-- C9.  `estimate_duration` is the sum over characters of the fixed
per-class base durations, corrected by the length factor (×0.95 over 50
characters, ×0.98 over 30) and the ×1.1 mixed-script penalty, plus the fixed
0.1 s base pause; it is a pure function of the text, bounded below by the
base pause — in particular non-negative. -/
theorem estimate_duration_formula (text : String) :
    estimate_duration text =
      (text.toList.map charBaseDuration).sum *
        lengthCorrection text.toList.length *
        mixedScriptFactor text.toList + 1 / 10 ∧
    1 / 10 ≤ estimate_duration text := by
  refine ⟨rfl, ?_⟩
  unfold estimate_duration
  have hsum : 0 ≤ (text.toList.map charBaseDuration).sum := by
    apply List.sum_nonneg
    intro x hx
    rcases List.mem_map.mp hx with ⟨c, _, rfl⟩
    exact charBaseDuration_nonneg c
  have h1 := lengthCorrection_pos text.toList.length
  have h2 := mixedScriptFactor_pos text.toList
  have hprod := mul_nonneg (mul_nonneg hsum h1.le) h2.le
  linarith

/-! ## `exceptions.py`: `AudioTooLongError` -/

/-- `AudioTooLongError` of `src/audio/exceptions.py`: carries the actual and
target durations, the retry count, and the stored ratio — `+∞` (modelled as
`⊤` in `WithTop ℚ`, standing for Python's `float('inf')`) when the target is
not positive. -/
structure AudioTooLongError where
  actual_duration : ℚ
  target_duration : ℚ
  retry_count : ℕ
  duration_ratio : WithTop ℚ
  deriving DecidableEq

/-- `AudioTooLongError.__init__` (lines 9–14): the guarded ratio computation
`actual / target if target > 0 else float('inf')`. -/
def mkAudioTooLongError (actual target : ℚ) (retries : ℕ) : AudioTooLongError :=
  { actual_duration := actual
    target_duration := target
    retry_count := retries
    duration_ratio :=
      if 0 < target then ((actual / target : ℚ) : WithTop ℚ) else ⊤ }

/-- C10.  Constructing an `AudioTooLongError` is total in both durations: the
three carried fields are stored as passed, and the stored ratio is
`actual / target` for positive targets and `+∞` for `target ≤ 0` — no
division by zero occurs. -/
theorem mkAudioTooLongError_total (actual target : ℚ) (retries : ℕ) :
    (mkAudioTooLongError actual target retries).actual_duration = actual ∧
    (mkAudioTooLongError actual target retries).target_duration = target ∧
    (mkAudioTooLongError actual target retries).retry_count = retries ∧
    (0 < target →
      (mkAudioTooLongError actual target retries).duration_ratio =
        ((actual / target : ℚ) : WithTop ℚ)) ∧
    (target ≤ 0 →
      (mkAudioTooLongError actual target retries).duration_ratio = ⊤) := by
  refine ⟨rfl, rfl, rfl, ?_, ?_⟩
  · intro h
    simp [mkAudioTooLongError, h]
  · intro h
    simp [mkAudioTooLongError, not_lt.mpr h]

/-- Witness for C10: a positive target stores the exact ratio, a zero target
stores `+∞`. -/
theorem mkAudioTooLongError_total_witness :
    (mkAudioTooLongError 3 2 3).duration_ratio = (((3 : ℚ) / 2 : ℚ) : WithTop ℚ) ∧
    (mkAudioTooLongError 1 0 3).duration_ratio = ⊤ :=
  ⟨(mkAudioTooLongError_total 3 2 3).2.2.2.1 (by norm_num),
   (mkAudioTooLongError_total 1 0 3).2.2.2.2 le_rfl⟩

end Srt2Voice
